import Mathlib

/-!
Shallow embedding of the discord-amethyst plugin/widget registration
framework, covering plugin registration (`amethyst/amethyst.py`), widget
binding (`amethyst/widget/abc.py`), the schedule wait/fire loop
(`amethyst/widget/schedule.py`, `amethyst/client.py`), event-handler
isolation (`amethyst/widget/event/event.py`), structural command
comparison (`amethyst/util.py`, `amethyst/client.py`), cron occurrence
computation (`amethyst/widget/schedule.py`) and context-menu wrapping
(`amethyst/widget/menu.py`).
-/

set_option autoImplicit false

namespace Amethyst

/-! ### Plugin registration (`amethyst/amethyst.py` `Client.register_plugin`) -/

/-- Python-level errors that can escape `Client.register_plugin`.
`attributeError name` models the `AttributeError` raised when an undefined
attribute `name` is looked up on a module object. -/
inductive PyError where
  | duplicatePluginError
  | pluginDependencyError
  | attributeError (missing : String)
deriving DecidableEq, Repr

/-- The attribute names defined by the module `amethyst/error.py`: its class
definitions (which coincide with its `__all__` tuple). -/
def errorModuleDefines (n : String) : Bool :=
  n == "AmethystError" || n == "ModuleLocateError" || n == "DuplicatePluginError"

/-- Evaluating `raise error.<name>(...)`: if `amethyst/error.py` defines the
attribute `name`, the named exception `e` is raised; otherwise the attribute
lookup itself raises an `AttributeError`. -/
def raiseFromErrorModule (name : String) (e : PyError) : PyError :=
  if errorModuleDefines name then e else .attributeError name

/-- A plugin class: its identity, the dependency types its `__init__`
declares, and the widget objects the `DynamicLoader` discovers on an
instance, in discovery order. -/
structure PluginType where
  id : Nat
  deps : List Nat
  widgets : List Nat
deriving DecidableEq, Repr

/-- The parts of `Client` state touched by `register_plugin`:
the `_dependencies` library (as the set of types present), the keys of
the `_plugins` dict, the `_widgets` list, and a trace `registerCalls`
recording one entry per invocation of `widget.register`. -/
structure Client where
  dependencies : List Nat
  plugins : List Nat
  widgets : List Nat
  registerCalls : List Nat
deriving DecidableEq, Repr

/-- The widget-handler loop of `register_plugin`: for each widget discovered
on the instance, `if widget not in self._widgets: widget.register(...);
self._widgets.append(widget)`. -/
def loadWidgets (c : Client) : List Nat → Client
  | [] => c
  | w :: ws =>
    if w ∈ c.widgets then loadWidgets c ws
    else
      loadWidgets
        { c with
          registerCalls := c.registerCalls ++ [w]
          widgets := c.widgets ++ [w] }
        ws

/-- `Client.register_plugin` (`amethyst/amethyst.py` lines 132-173): fail
fast with `DuplicatePluginError` on re-registration; raise through
`error.PluginDependencyError` when dependency injection fails; otherwise
register each not-yet-seen widget and finally add the plugin to `_plugins`.
The returned pair is (raised exception if any, resulting client state). -/
def register_plugin (c : Client) (p : PluginType) : Option PyError × Client :=
  if p.id ∈ c.plugins then
    (some (raiseFromErrorModule "DuplicatePluginError" .duplicatePluginError), c)
  else if p.deps.any (fun d => !c.dependencies.contains d) then
    (some (raiseFromErrorModule "PluginDependencyError" .pluginDependencyError), c)
  else
    let c1 := loadWidgets c p.widgets
    (none, { c1 with plugins := c1.plugins ++ [p.id] })

/-- A client with no plugins or widgets registered yet and the given
dependency types in its library. -/
def initClient (deps : List Nat) : Client :=
  { dependencies := deps, plugins := [], widgets := [], registerCalls := [] }

/-- Folding `register_plugin` over a list of plugin classes, keeping the
client state regardless of raised errors. -/
def register_sequence (c : Client) : List PluginType → Client
  | [] => c
  | p :: ps => register_sequence (register_plugin c p).2 ps

/-! ### Widget binding (`amethyst/widget/abc.py`) -/

/-- `CallbackWidget`: wraps a user callback (`_callback`, here its identity)
with the owning-plugin reference `_binding` (initially `None`) and the
kind-specific metadata fields added by subclasses (collapsed into `extra`). -/
structure CallbackWidget where
  callback : Nat
  binding : Option Nat
  extra : List Nat
deriving DecidableEq, Repr

/-- `CallbackWidget._bound_copy` (`amethyst/widget/abc.py` lines 68-71):
shallow-copy the descriptor and set the copy's `_binding` to the given
plugin instance. All other fields are shared with the original. -/
def CallbackWidget.bound_copy (w : CallbackWidget) (b : Nat) : CallbackWidget :=
  { w with binding := some b }

/-- A plugin instance as seen by `_bind_widgets`: its identity and the
widget-valued attributes the `DynamicLoader` finds on it. -/
structure PluginInstance where
  id : Nat
  attrs : List (String × CallbackWidget)
deriving DecidableEq, Repr

/-- `AmethystPlugin._bind_widgets` (`amethyst/widget/abc.py` lines 39-49):
each widget-typed attribute is overwritten with `v._bound_copy(self)`. -/
def PluginInstance.bind_widgets (self : PluginInstance) : PluginInstance :=
  { self with attrs := self.attrs.map (fun nv => (nv.1, nv.2.bound_copy self.id)) }

/-! ### Schedule waiting (`amethyst/widget/schedule.py` `wait_until`) -/

/-- The cutoff `_min_step = 30` of `wait_until` (also
`_schedule_delay_cutoff = 30` in `amethyst/client.py`). -/
def scheduleDelayCutoff : ℚ := 30

/-- Fuel-indexed run of `wait_until` in idealized time, recording the list of
durations passed to `asyncio.sleep`. Given remaining delay `d` to the target
instant: if `d <= 30` the loop breaks and sleeps exactly `d`; otherwise it
sleeps `d / 2`, after which the recomputed remaining delay is `d / 2`.
Returns `none` when the fuel runs out. -/
def waitSleeps : Nat → ℚ → Option (List ℚ)
  | 0, _ => none
  | fuel + 1, d =>
    if d ≤ scheduleDelayCutoff then some [d]
    else
      match waitSleeps fuel (d / 2) with
      | none => none
      | some l => some (d / 2 :: l)

/-! ### Schedule firing cycle (`amethyst/client.py` `_schedule_loop`) -/

/-- `min(schedule_map.values())`: the minimum of the computed next
occurrences (the Python `min` of a nonempty dict's values). -/
def nextDatetime : List (Nat × ℚ) → ℚ
  | [] => 0
  | sd :: rest => (rest.map Prod.snd).foldl min sd.2

/-- One firing step of `_schedule_loop` after the final sleep completes:
`schedules = [s for s, d in schedule_map.items() if d == next_datetime]`
is invoked (concurrently via `asyncio.gather`), then the loop does
`await asyncio.sleep(1)` before recomputing. Returns the invoked schedule
keys and the post-fire sleep duration. -/
def fireCycle (m : List (Nat × ℚ)) : List Nat × ℚ :=
  ((m.filter (fun sd => decide (sd.2 = nextDatetime m))).map Prod.fst, 1)

/-- The schedules invoked in one firing cycle. -/
def invokedSchedules (m : List (Nat × ℚ)) : List Nat :=
  (fireCycle m).1

/-! ### Event handler isolation (`amethyst/widget/event/event.py`) -/

/-- Result of running a handler callback: it either returns or raises an
exception carrying a message. -/
inductive CallResult where
  | ok
  | exn (msg : String)
deriving DecidableEq, Repr

/-- An event handler as registered by `EventWidget.register`: its identity,
the owning plugin (`None` for anonymous handlers registered through
`Client.event`), and the callback's behavior on its argument list. -/
structure Handler where
  hid : Nat
  plugin : Option Nat
  run : List Nat → CallResult

/-- What the wrapper produced for one handler: the callback completed, or it
raised and the exception was logged by the `except` clause. -/
inductive HandlerOutcome where
  | completed
  | loggedError (msg : String)
deriving DecidableEq, Repr

/-- The argument list a handler's callback receives: the `handler` check
function prepends the owning plugin when there is one
(`if plugin is not None: args = (plugin, *args)`). -/
def handlerArgs (h : Handler) (args : List Nat) : List Nat :=
  match h.plugin with
  | some p => p :: args
  | none => args

/-- Running `await self.callback(*args)` bare: a raising callback propagates
its exception. -/
def rawCall (h : Handler) (args : List Nat) : Except String Unit :=
  match h.run (handlerArgs h args) with
  | .ok => .ok ()
  | .exn m => .error m

/-- The `wrapper` coroutine of `EventWidget.register` (lines 71-76):
`try: await self.callback(*args) except Exception: _log.error(...)`.
An exception from the callback is caught and logged, so the wrapper task
itself never propagates an exception. -/
def wrapperTask (h : Handler) (args : List Nat) : Except String HandlerOutcome :=
  match rawCall h args with
  | .ok _ => .ok .completed
  | .error m => .ok (.loggedError m)

/-- Invoking an event: each registered handler's check fires and schedules
its own `wrapper` task, so the outcomes are the per-handler wrapper results,
computed independently. -/
def invokeEvent (hs : List Handler) (args : List Nat) :
    List (Except String HandlerOutcome) :=
  hs.map (fun h => wrapperTask h args)

/-! ### Context menus (`amethyst/widget/menu.py` `ContextMenuWidget.bound`) -/

/-- A parameter of the callback signature as reported by
`inspect.signature(...).parameters`: its name and its type annotation
(`none` models `Parameter.empty`). -/
structure PyParam where
  name : String
  ann : Option String
deriving DecidableEq, Repr

/-- A context-menu widget: the callback's signature and its behavior as a
function of (plugin, interaction, subject), recording the observable call. -/
structure ContextMenuWidget where
  params : List PyParam
  callback : Nat → Nat → Nat → List Nat

/-- The wrapped callback returned by `ContextMenuWidget.bound`: the inner
`bound` coroutine plus the subject type annotation copied onto it
(so the external command framework can select user- vs message-menu kind). -/
structure BoundMenuCallback where
  run : Nat → Nat → List Nat
  subjectTy : String

/-- `ContextMenuWidget.bound` (`amethyst/widget/menu.py` lines 25-47):
raises `ValueError` unless the callback takes exactly 3 parameters and the
trailing (subject) parameter is annotated; otherwise returns the wrapper
that calls the original callback with the owning plugin prepended, carrying
the subject parameter's annotation. -/
def ContextMenuWidget.bound (w : ContextMenuWidget) (plugin : Nat) :
    Except String BoundMenuCallback :=
  if w.params.length ≠ 3 then
    .error "Context menus require exactly 3 parameters"
  else
    match w.params.getLast? with
    | none => .error "Context menus require exactly 3 parameters"
    | some subject =>
      match subject.ann with
      | none => .error "Third parameter of context menus must be explicityly typed."
      | some ty =>
        .ok
          { run := fun interaction subj => w.callback plugin interaction subj
            subjectTy := ty }

/-! ### Structural command comparison (`amethyst/util.py`, `amethyst/client.py`) -/

/-- A Python value as handled by `_node_is_subset`: dictionaries, lists, and
atomic values (strings, numbers, booleans, `None`), the atoms collapsed into
an identity string. -/
inductive PyValue where
  | prim (s : String)
  | dict (entries : List (String × PyValue))
  | list (elems : List PyValue)

/-- Python dict lookup `superset[k]` on the (unique-keyed) entry list;
`none` models `k not in superset`. -/
def lookupEntry (k : String) : List (String × PyValue) → Option PyValue
  | [] => none
  | kv :: rest => if kv.1 == k then some kv.2 else lookupEntry k rest

mutual

/-- `_node_is_subset` (`amethyst/util.py` lines 26-38): dictionaries check
that every subset entry is present in the superset with a recursively
matching value; lists check that every subset element matches some superset
element regardless of order; any other pair falls back to Python `==`
(equality of atoms; mixed kinds compare unequal). -/
def nodeIsSubset : PyValue → PyValue → Bool
  | .dict sup, .dict sub => entriesSubset sup sub
  | .list sup, .list sub => elemsSubset sup sub
  | .prim a, .prim b => a == b
  | _, _ => false
termination_by _ b => (sizeOf b, 0)

/-- The dict branch of `_node_is_subset`:
`all(k in superset and _node_is_subset(superset[k], v) for k, v in subset.items())`. -/
def entriesSubset (sup : List (String × PyValue)) : List (String × PyValue) → Bool
  | [] => true
  | (k, v) :: rest =>
    (match lookupEntry k sup with
      | some sv => nodeIsSubset sv v
      | none => false)
    && entriesSubset sup rest
termination_by sub => (sizeOf sub, 1)

/-- The list branch of `_node_is_subset`:
`all(any(_node_is_subset(x, y) for x in superset) for y in subset)`. -/
def elemsSubset (sup : List PyValue) : List PyValue → Bool
  | [] => true
  | y :: ys => anyMatches sup y && elemsSubset sup ys
termination_by sub => (sizeOf sub, 1)

/-- `any(_node_is_subset(x, y) for x in superset)`. -/
def anyMatches : List PyValue → PyValue → Bool
  | [], _ => false
  | x :: xs, y => nodeIsSubset x y || anyMatches xs y
termination_by sup y => (sizeOf y, sizeOf sup)

end

/-- `is_dict_subset` (`amethyst/util.py` lines 6-24). -/
def is_dict_subset (sup sub : List (String × PyValue)) : Bool :=
  nodeIsSubset (.dict sup) (.dict sub)

/-- `AmethystClient.commands_in_sync` (`amethyst/client.py` lines 202-231)
after the name-keyed `local` and `remote` dicts have been built: out of sync
when the symmetric difference of the name sets is nonempty, otherwise in
sync iff `is_dict_subset(remote, local)`. -/
def commands_in_sync (loc rem : List (String × PyValue)) : Bool :=
  (loc.all (fun kv => (lookupEntry kv.1 rem).isSome)
      && rem.all (fun kv => (lookupEntry kv.1 loc).isSome))
    && is_dict_subset rem loc

/-! ### Cron occurrences (`amethyst/widget/schedule.py` `next_occurrence`) -/

/-- Modelled from the spec: the external `croniter` library is a boundary
collaborator, so a cron expression is modelled abstractly as a periodic
predicate on discrete time — `pattern` on residues modulo `period`
("next occurrence derived from its cron expression, evaluated against
current time"). -/
structure CronExpr where
  period : Nat
  pattern : Nat → Bool

/-- Whether the cron expression fires at instant `t`. -/
def CronExpr.fires (c : CronExpr) (t : Nat) : Bool :=
  c.pattern (t % c.period)

/-- A syntactically valid cron expression (validated at widget construction)
has a positive period and fires at least once per period. -/
def CronExpr.valid (c : CronExpr) : Prop :=
  0 < c.period ∧ ∃ s, s < c.period ∧ c.pattern s = true

/-- Linear search for the first firing instant in `[t, t + fuel)`. -/
def searchFrom (c : CronExpr) : Nat → Nat → Option Nat
  | _, 0 => none
  | t, fuel + 1 => if c.fires t then some t else searchFrom c (t + 1) fuel

/-- Modelled from the spec: `ScheduleWidget.next_occurrence` delegates to
`croniter(self.cron, datetime.now()).get_next(datetime)`, the earliest
firing instant strictly after `now` (per the spec, "always strictly greater
than now at computation time"); one full period past `now` always contains
a firing instant of a valid expression. -/
def next_occurrence (c : CronExpr) (now : Nat) : Nat :=
  (searchFrom c (now + 1) c.period).getD 0

/-- The sequence of successive computations: each evaluation happens at the
previous occurrence time. -/
def occurrenceSeq (c : CronExpr) (t : Nat) : Nat → Nat
  | 0 => t
  | n + 1 => next_occurrence c (occurrenceSeq c t n)

/-! ## Theorems -/

/-! ### Registration invariants -/

theorem loadWidgets_calls_eq_widgets (ws : List Nat) (c : Client)
    (h : c.registerCalls = c.widgets) :
    (loadWidgets c ws).registerCalls = (loadWidgets c ws).widgets := by
  induction ws generalizing c with
  | nil => simpa [loadWidgets] using h
  | cons w ws ih =>
    unfold loadWidgets
    by_cases hw : w ∈ c.widgets
    · rw [if_pos hw]
      exact ih c h
    · rw [if_neg hw]
      exact ih _ (by simp [h])

theorem loadWidgets_nodup (ws : List Nat) (c : Client) (h : c.widgets.Nodup) :
    (loadWidgets c ws).widgets.Nodup := by
  induction ws generalizing c with
  | nil => simpa [loadWidgets] using h
  | cons w ws ih =>
    unfold loadWidgets
    by_cases hw : w ∈ c.widgets
    · rw [if_pos hw]
      exact ih c h
    · rw [if_neg hw]
      refine ih _ ?_
      simp only [List.nodup_append, List.nodup_cons, List.nodup_nil]
      exact ⟨h, by simp, by simpa using hw⟩

theorem register_plugin_preserves_inv (c : Client) (p : PluginType)
    (h1 : c.registerCalls = c.widgets) (h2 : c.widgets.Nodup) :
    (register_plugin c p).2.registerCalls = (register_plugin c p).2.widgets ∧
      (register_plugin c p).2.widgets.Nodup := by
  unfold register_plugin
  by_cases ha : p.id ∈ c.plugins
  · rw [if_pos ha]
    exact ⟨h1, h2⟩
  · rw [if_neg ha]
    by_cases hb : p.deps.any fun d => !c.dependencies.contains d
    · rw [if_pos hb]
      exact ⟨h1, h2⟩
    · rw [if_neg hb]
      exact ⟨loadWidgets_calls_eq_widgets p.widgets c h1, loadWidgets_nodup p.widgets c h2⟩

theorem register_sequence_preserves_inv (ps : List PluginType) (c : Client)
    (h1 : c.registerCalls = c.widgets) (h2 : c.widgets.Nodup) :
    (register_sequence c ps).registerCalls = (register_sequence c ps).widgets ∧
      (register_sequence c ps).widgets.Nodup := by
  induction ps generalizing c with
  | nil => exact ⟨h1, h2⟩
  | cons p ps ih =>
    obtain ⟨g1, g2⟩ := register_plugin_preserves_inv c p h1 h2
    exact ih _ g1 g2

/-- Claim C1: a second call to `Client.register_plugin(P)` after a successful
first registration raises `DuplicatePluginError`, and the second call leaves
the client's plugin registry and widget list exactly as they were after the
first call (the error is raised before any mutation). -/
theorem register_plugin_twice_duplicate_error (c c' : Client) (p : PluginType)
    (h : register_plugin c p = (none, c')) :
    register_plugin c' p = (some PyError.duplicatePluginError, c') := by
  unfold register_plugin at h
  by_cases ha : p.id ∈ c.plugins
  · rw [if_pos ha] at h
    cases h
  · rw [if_neg ha] at h
    by_cases hb : p.deps.any fun d => !c.dependencies.contains d
    · rw [if_pos hb] at h
      cases h
    · rw [if_neg hb] at h
      have hc : c' = { loadWidgets c p.widgets with
          plugins := (loadWidgets c p.widgets).plugins ++ [p.id] } :=
        (Prod.mk.injEq _ _ _ _ ▸ h).symm.1.symm ▸ ((Prod.mk.injEq _ _ _ _).mp h).2
      have hmem : p.id ∈ c'.plugins := by
        rw [hc]
        simp
      unfold register_plugin
      rw [if_pos hmem]
      rfl

/-- Witness for claim C1 at a concrete plugin and client. -/
theorem register_plugin_twice_duplicate_error_witness :
    register_plugin (register_plugin (initClient []) ⟨0, [], [5]⟩).2 ⟨0, [], [5]⟩
      = (some PyError.duplicatePluginError,
          (register_plugin (initClient []) ⟨0, [], [5]⟩).2) :=
  register_plugin_twice_duplicate_error (initClient []) _ ⟨0, [], [5]⟩ rfl

/-- Claim C2 (code bug evidence): registering a plugin that requires a
dependency type absent from the registry does fail before any widget is
registered and before the plugin is added, but the raised exception is an
`AttributeError` — `amethyst/amethyst.py` raises
`error.PluginDependencyError`, an attribute that `amethyst/error.py` never
defines — rather than the classified `PluginDependencyError`. -/
theorem register_plugin_missing_dependency_attribute_error :
    register_plugin (initClient []) ⟨0, [1], [5]⟩
      = (some (PyError.attributeError "PluginDependencyError"), initClient [])
      ∧ PyError.attributeError "PluginDependencyError" ≠ PyError.pluginDependencyError := by
  constructor
  · rfl
  · intro h
    cases h

/-- Claim C3: binding a widget produces a shallow copy whose `_binding` is
the given plugin instance while every other field equals the original's, and
after `_bind_widgets` every widget attribute on a plugin instance is bound to
exactly that instance. -/
theorem bound_copy_binds_to_owner (w : CallbackWidget) (b : Nat)
    (inst : PluginInstance) (nv : String × CallbackWidget)
    (hmem : nv ∈ inst.bind_widgets.attrs) :
    (w.bound_copy b).binding = some b ∧
    (w.bound_copy b).callback = w.callback ∧
    (w.bound_copy b).extra = w.extra ∧
    nv.2.binding = some inst.id := by
  refine ⟨rfl, rfl, rfl, ?_⟩
  simp only [PluginInstance.bind_widgets, List.mem_map] at hmem
  obtain ⟨x, _, hx⟩ := hmem
  rw [← hx]
  rfl

/-- Witness for claim C3 at a concrete widget and instance. -/
theorem bound_copy_binds_to_owner_witness :
    ((⟨1, none, [2]⟩ : CallbackWidget).bound_copy 5).binding = some 5 ∧
    ((⟨1, none, [2]⟩ : CallbackWidget).bound_copy 5).callback = 1 ∧
    ((⟨1, none, [2]⟩ : CallbackWidget).bound_copy 5).extra = [2] ∧
    ("w", (⟨1, none, [2]⟩ : CallbackWidget).bound_copy 9).2.binding = some 9 :=
  bound_copy_binds_to_owner ⟨1, none, [2]⟩ 5
    ⟨9, [("w", ⟨1, none, [2]⟩)]⟩
    ("w", (⟨1, none, [2]⟩ : CallbackWidget).bound_copy 9)
    (by simp [PluginInstance.bind_widgets])

/-- Claim C10: starting from a fresh client, after any sequence of
`register_plugin` calls the `_widgets` list contains no duplicate widget
objects and each widget's `register` method has been invoked at most once. -/
theorem register_sequence_widgets_nodup (deps : List Nat) (ps : List PluginType) :
    (register_sequence (initClient deps) ps).widgets.Nodup ∧
    ∀ w, (register_sequence (initClient deps) ps).registerCalls.count w ≤ 1 := by
  obtain ⟨h1, h2⟩ := register_sequence_preserves_inv ps (initClient deps) rfl (by simp [initClient])
  refine ⟨h2, fun w => ?_⟩
  rw [h1]
  exact List.nodup_iff_count_le_one.mp h2 w

/-! ### Halving wait strategy -/

theorem div_two_pow (d : ℚ) (i : Nat) : d / 2 / 2 ^ i = d / 2 ^ (i + 1) := by
  rw [div_div, ← pow_succ']

theorem waitSleeps_sum (n : Nat) (d : ℚ) (l : List ℚ)
    (h : waitSleeps n d = some l) : l.sum = d := by
  induction n generalizing d l with
  | zero => simp [waitSleeps] at h
  | succ n ih =>
    unfold waitSleeps at h
    by_cases hd : d ≤ scheduleDelayCutoff
    · rw [if_pos hd] at h
      cases h
      simp
    · rw [if_neg hd] at h
      cases hw : waitSleeps n (d / 2) with
      | none => rw [hw] at h; cases h
      | some l' =>
        rw [hw] at h
        cases h
        have hs := ih (d / 2) l' hw
        simp [hs]

theorem waitSleeps_closed_form (k : Nat) (d : ℚ)
    (hlast : d / 2 ^ k ≤ scheduleDelayCutoff)
    (hbefore : ∀ i < k, scheduleDelayCutoff < d / 2 ^ i) :
    waitSleeps (k + 1) d
      = some ((List.range k).map (fun i => d / 2 ^ (i + 1)) ++ [d / 2 ^ k]) := by
  induction k generalizing d with
  | zero =>
    have hd : d ≤ scheduleDelayCutoff := by simpa using hlast
    simp [waitSleeps, hd]
  | succ k ih =>
    have h0 : scheduleDelayCutoff < d := by
      simpa using hbefore 0 (Nat.succ_pos k)
    have hrec := ih (d / 2)
      (by rw [div_two_pow]; exact hlast)
      (fun i hi => by rw [div_two_pow]; exact hbefore (i + 1) (Nat.succ_lt_succ hi))
    unfold waitSleeps
    rw [if_neg (not_le.2 h0), hrec]
    rw [List.range_succ_eq_map, List.map_cons, List.map_map]
    simp only [pow_one, div_two_pow, List.cons_append]
    simp [Function.comp, Nat.succ_eq_add_one]

theorem exists_halving_count (d : ℚ) :
    ∃ k, d / 2 ^ k ≤ scheduleDelayCutoff ∧
      ∀ i < k, scheduleDelayCutoff < d / 2 ^ i := by
  have hex : ∃ k : Nat, d / 2 ^ k ≤ scheduleDelayCutoff := by
    obtain ⟨n, hn⟩ := pow_unbounded_of_one_lt d (by norm_num : (1 : ℚ) < 2)
    refine ⟨n, ?_⟩
    have h2 : (0 : ℚ) < 2 ^ n := by positivity
    rw [div_le_iff₀ h2]
    have hc : scheduleDelayCutoff = 30 := rfl
    rw [hc]
    linarith
  exact ⟨Nat.find hex, Nat.find_spec hex,
    fun i hi => not_le.1 (Nat.find_min hex hi)⟩

/-- Claim C4: for every delay `d` to the target instant, `wait_until`
terminates: it sleeps half the remaining duration whenever the remaining
duration exceeds the 30-second cutoff (after `i` halvings the remaining
duration is `d / 2 ^ i`), then sleeps exactly the remainder once it is at or
below the cutoff, and the durations slept sum to exactly `d`. -/
theorem wait_until_halving_strategy (d : ℚ) :
    ∃ n l, waitSleeps n d = some l ∧ l.sum = d ∧
      ∃ k, l = (List.range k).map (fun i => d / 2 ^ (i + 1)) ++ [d / 2 ^ k] ∧
        d / 2 ^ k ≤ scheduleDelayCutoff ∧
        ∀ i < k, scheduleDelayCutoff < d / 2 ^ i := by
  obtain ⟨k, hk, hb⟩ := exists_halving_count d
  have hcf := waitSleeps_closed_form k d hk hb
  exact ⟨k + 1, _, hcf, waitSleeps_sum _ _ _ hcf, k, rfl, hk, hb⟩

/-- Witness for claim C4 at the concrete delay 100 seconds. -/
theorem wait_until_halving_strategy_witness :
    ∃ n l, waitSleeps n (100 : ℚ) = some l ∧ l.sum = 100 ∧
      ∃ k, l = (List.range k).map (fun i => (100 : ℚ) / 2 ^ (i + 1)) ++ [(100 : ℚ) / 2 ^ k] ∧
        (100 : ℚ) / 2 ^ k ≤ scheduleDelayCutoff ∧
        ∀ i < k, scheduleDelayCutoff < (100 : ℚ) / 2 ^ i :=
  wait_until_halving_strategy 100

/-! ### Schedule firing cycle -/

theorem foldl_min_le_init (xs : List ℚ) (a : ℚ) : xs.foldl min a ≤ a := by
  induction xs generalizing a with
  | nil => exact le_refl a
  | cons x xs ih => exact le_trans (ih (min a x)) (min_le_left a x)

theorem foldl_min_le_mem (xs : List ℚ) (x : ℚ) (hx : x ∈ xs) :
    ∀ a, xs.foldl min a ≤ x := by
  induction xs with
  | nil => cases hx
  | cons y ys ih =>
    intro a
    rcases List.mem_cons.1 hx with h | h
    · subst h
      exact le_trans (foldl_min_le_init ys (min a x)) (min_le_right a x)
    · exact ih h (min a y)

theorem nextDatetime_le (m : List (Nat × ℚ)) (sd : Nat × ℚ) (h : sd ∈ m) :
    nextDatetime m ≤ sd.2 := by
  cases m with
  | nil => cases h
  | cons hd tl =>
    rcases List.mem_cons.1 h with he | he
    · subst he
      exact foldl_min_le_init _ _
    · exact foldl_min_le_mem _ _ (List.mem_map.2 ⟨sd, he, rfl⟩) _

theorem keys_nodup_inj (m : List (Nat × ℚ)) (h : (m.map Prod.fst).Nodup)
    (a b : Nat × ℚ) (ha : a ∈ m) (hb : b ∈ m) (hab : a.1 = b.1) : a = b := by
  induction m with
  | nil => cases ha
  | cons hd tl ih =>
    rw [List.map_cons, List.nodup_cons] at h
    rcases List.mem_cons.1 ha with ha' | ha' <;> rcases List.mem_cons.1 hb with hb' | hb'
    · rw [ha', hb']
    · exfalso
      apply h.1
      rw [ha'] at hab
      rw [hab]
      exact List.mem_map.2 ⟨b, hb', rfl⟩
    · exfalso
      apply h.1
      rw [hb'] at hab
      rw [← hab]
      exact List.mem_map.2 ⟨a, ha', rfl⟩
    · exact ih h.2 ha' hb'

/-- Claim C5: in one firing cycle of `_schedule_loop`, the schedules invoked
are exactly the registered schedules whose next occurrence equals the
minimum next occurrence; any schedule with a strictly later occurrence is
not invoked; and the loop then sleeps one second before recomputing. -/
theorem schedule_cycle_fires_exactly_min (m : List (Nat × ℚ))
    (hkeys : (m.map Prod.fst).Nodup) :
    (∀ sd ∈ m, nextDatetime m ≤ sd.2) ∧
    (∀ sd ∈ m, (sd.1 ∈ invokedSchedules m ↔ sd.2 = nextDatetime m)) ∧
    (∀ sd ∈ m, nextDatetime m < sd.2 → sd.1 ∉ invokedSchedules m) ∧
    (fireCycle m).2 = 1 := by
  have hle : ∀ sd ∈ m, nextDatetime m ≤ sd.2 := fun sd h => nextDatetime_le m sd h
  have hiff : ∀ sd ∈ m, (sd.1 ∈ invokedSchedules m ↔ sd.2 = nextDatetime m) := by
    intro sd hsd
    constructor
    · intro hin
      simp only [invokedSchedules, fireCycle, List.mem_map, List.mem_filter,
        decide_eq_true_eq] at hin
      obtain ⟨sd', ⟨hsd', heq⟩, hfst⟩ := hin
      have : sd' = sd := keys_nodup_inj m hkeys sd' sd hsd' hsd hfst
      rw [← this]
      exact heq
    · intro heq
      simp only [invokedSchedules, fireCycle, List.mem_map, List.mem_filter,
        decide_eq_true_eq]
      exact ⟨sd, ⟨hsd, heq⟩, rfl⟩
  refine ⟨hle, hiff, ?_, rfl⟩
  intro sd hsd hlt hin
  have := (hiff sd hsd).1 hin
  exact absurd this (by linarith)

/-- Witness for claim C5: two schedules sharing the earliest occurrence are
both invoked, a third with a later occurrence is not. -/
theorem schedule_cycle_fires_exactly_min_witness :
    ((1, (5 : ℚ)) ∈ [(1, (5 : ℚ)), (2, 5), (3, 7)] →
      ((1, (5 : ℚ)).1 ∈ invokedSchedules [(1, (5 : ℚ)), (2, 5), (3, 7)] ↔
        (1, (5 : ℚ)).2 = nextDatetime [(1, (5 : ℚ)), (2, 5), (3, 7)])) ∧
    ((3, (7 : ℚ)) ∈ [(1, (5 : ℚ)), (2, 5), (3, 7)] →
      nextDatetime [(1, (5 : ℚ)), (2, 5), (3, 7)] < (3, (7 : ℚ)).2 →
      (3, (7 : ℚ)).1 ∉ invokedSchedules [(1, (5 : ℚ)), (2, 5), (3, 7)]) ∧
    (fireCycle [(1, (5 : ℚ)), (2, 5), (3, 7)]).2 = 1 := by
  have h := schedule_cycle_fires_exactly_min [(1, (5 : ℚ)), (2, 5), (3, 7)] (by simp)
  exact ⟨h.2.1 (1, (5 : ℚ)), h.2.2.1 (3, (7 : ℚ)), h.2.2.2⟩

/-! ### Event handler isolation -/

/-- Claim C6: invoking an event runs one wrapper task per registered
handler; each outcome depends only on that handler, a raising callback's
exception is caught and surfaces as a logged outcome (never a propagating
exception), so sibling handlers are unaffected. -/
theorem event_handler_isolation (hs : List Handler) (args : List Nat)
    (i : Nat) (h : Handler) (hi : hs[i]? = some h) :
    (invokeEvent hs args).length = hs.length ∧
    (invokeEvent hs args)[i]? = some (wrapperTask h args) ∧
    ∀ m, rawCall h args = .error m →
      (invokeEvent hs args)[i]? = some (.ok (.loggedError m)) := by
  refine ⟨by simp [invokeEvent], ?_, ?_⟩
  · simp [invokeEvent, List.getElem?_map, hi]
  · intro m hm
    simp [invokeEvent, List.getElem?_map, hi, wrapperTask, hm]

/-- Witness for claim C6: one raising handler alongside one normal handler;
the exception is logged and both handlers produce outcomes. -/
theorem event_handler_isolation_witness :
    (invokeEvent [⟨1, some 7, fun _ => .exn "boom"⟩, ⟨2, none, fun _ => .ok⟩] [3]).length = 2 ∧
    (invokeEvent [⟨1, some 7, fun _ => .exn "boom"⟩, ⟨2, none, fun _ => .ok⟩] [3])[0]?
      = some (.ok (.loggedError "boom")) :=
  ⟨(event_handler_isolation [⟨1, some 7, fun _ => .exn "boom"⟩, ⟨2, none, fun _ => .ok⟩]
      [3] 0 ⟨1, some 7, fun _ => .exn "boom"⟩ rfl).1,
   (event_handler_isolation [⟨1, some 7, fun _ => .exn "boom"⟩, ⟨2, none, fun _ => .ok⟩]
      [3] 0 ⟨1, some 7, fun _ => .exn "boom"⟩ rfl).2.2 "boom" rfl⟩

/-! ### Structural command comparison -/

theorem anyMatches_iff (sup : List PyValue) (y : PyValue) :
    anyMatches sup y = true ↔ ∃ x ∈ sup, nodeIsSubset x y = true := by
  induction sup with
  | nil => simp [anyMatches]
  | cons x xs ih => simp [anyMatches, Bool.or_eq_true, ih]

theorem elemsSubset_iff (sup sub : List PyValue) :
    elemsSubset sup sub = true ↔ ∀ y ∈ sub, ∃ x ∈ sup, nodeIsSubset x y = true := by
  induction sub with
  | nil => simp [elemsSubset]
  | cons y ys ih => simp [elemsSubset, Bool.and_eq_true, ih, anyMatches_iff]

theorem entriesSubset_iff (sup sub : List (String × PyValue)) :
    entriesSubset sup sub = true ↔
      ∀ kv ∈ sub, ∃ sv, lookupEntry kv.1 sup = some sv ∧ nodeIsSubset sv kv.2 = true := by
  induction sub with
  | nil => simp [entriesSubset]
  | cons kv rest ih =>
    obtain ⟨k, v⟩ := kv
    cases hl : lookupEntry k sup with
    | none => simp [entriesSubset, hl, ih]
    | some sv => simp [entriesSubset, hl, ih]

theorem lookupEntry_isSome_iff (k : String) (l : List (String × PyValue)) :
    (lookupEntry k l).isSome = true ↔ k ∈ l.map Prod.fst := by
  induction l with
  | nil => simp [lookupEntry]
  | cons kv rest ih =>
    simp only [lookupEntry, List.map_cons, List.mem_cons]
    by_cases hk : kv.1 = k
    · simp [hk]
    · simp only [beq_iff_eq, if_neg hk, ih]
      constructor
      · exact Or.inr
      · rintro (h | h)
        · exact absurd h.symm hk
        · exact h

theorem is_dict_subset_eq_entriesSubset (sup sub : List (String × PyValue)) :
    is_dict_subset sup sub = entriesSubset sup sub := by
  rw [is_dict_subset]
  simp [nodeIsSubset]

/-- Claim C7: `commands_in_sync` returns true iff the local and remote
command-name sets coincide and, for each local command, the remote command's
field dictionary is a recursive superset of the local one; `is_dict_subset`
holds iff every subset key is present in the superset with a recursively
matching value, list matching is order-insensitive, and a local command
absent remotely yields out of sync. -/
theorem commands_in_sync_characterization (loc rem : List (String × PyValue)) :
    (commands_in_sync loc rem = true ↔
      ((∀ k, k ∈ loc.map Prod.fst ↔ k ∈ rem.map Prod.fst) ∧
        ∀ kv ∈ loc, ∃ sv, lookupEntry kv.1 rem = some sv ∧ nodeIsSubset sv kv.2 = true)) ∧
    (∀ supL subL : List PyValue,
      nodeIsSubset (.list supL) (.list subL) = true ↔
        ∀ y ∈ subL, ∃ x ∈ supL, nodeIsSubset x y = true) ∧
    (∀ supE subE : List (String × PyValue),
      is_dict_subset supE subE = true ↔
        ∀ kv ∈ subE, ∃ sv, lookupEntry kv.1 supE = some sv ∧ nodeIsSubset sv kv.2 = true) ∧
    (∀ kv ∈ loc, lookupEntry kv.1 rem = none → commands_in_sync loc rem = false) := by
  have hmain : commands_in_sync loc rem = true ↔
      ((∀ k, k ∈ loc.map Prod.fst ↔ k ∈ rem.map Prod.fst) ∧
        ∀ kv ∈ loc, ∃ sv, lookupEntry kv.1 rem = some sv ∧ nodeIsSubset sv kv.2 = true) := by
    rw [commands_in_sync, Bool.and_eq_true, Bool.and_eq_true,
      is_dict_subset_eq_entriesSubset, entriesSubset_iff,
      List.all_eq_true, List.all_eq_true]
    constructor
    · rintro ⟨⟨h1, h2⟩, h3⟩
      refine ⟨fun k => ⟨fun hk => ?_, fun hk => ?_⟩, h3⟩
      · obtain ⟨kv, hkv, rfl⟩ := List.mem_map.1 hk
        exact (lookupEntry_isSome_iff _ _).1 (h1 kv hkv)
      · obtain ⟨kv, hkv, rfl⟩ := List.mem_map.1 hk
        exact (lookupEntry_isSome_iff _ _).1 (h2 kv hkv)
    · rintro ⟨h1, h2⟩
      refine ⟨⟨fun kv hkv => ?_, fun kv hkv => ?_⟩, h2⟩
      · exact (lookupEntry_isSome_iff _ _).2 ((h1 kv.1).1 (List.mem_map.2 ⟨kv, hkv, rfl⟩))
      · exact (lookupEntry_isSome_iff _ _).2 ((h1 kv.1).2 (List.mem_map.2 ⟨kv, hkv, rfl⟩))
  refine ⟨hmain, ?_, ?_, ?_⟩
  · intro supL subL
    have hls : nodeIsSubset (.list supL) (.list subL) = elemsSubset supL subL := by
      simp [nodeIsSubset]
    rw [hls]
    exact elemsSubset_iff supL subL
  · intro supE subE
    rw [is_dict_subset_eq_entriesSubset]
    exact entriesSubset_iff supE subE
  · intro kv hkv hnone
    by_contra hne
    rw [Bool.not_eq_false] at hne
    obtain ⟨sv, hsv, _⟩ := (hmain.1 hne).2 kv hkv
    rw [hnone] at hsv
    cases hsv

/-- Witness for claim C7: a local command absent remotely is out of sync. -/
theorem commands_in_sync_characterization_witness :
    commands_in_sync [("ping", PyValue.prim "c")] [] = false :=
  (commands_in_sync_characterization [("ping", PyValue.prim "c")] []).2.2.2
    ("ping", PyValue.prim "c") (by simp) rfl

/-! ### Cron occurrences -/

theorem searchFrom_some (c : CronExpr) (fuel : Nat) :
    ∀ t u, searchFrom c t fuel = some u →
      t ≤ u ∧ u < t + fuel ∧ c.fires u = true ∧
        ∀ v, t ≤ v → v < u → c.fires v = false := by
  induction fuel with
  | zero => intro t u h; simp [searchFrom] at h
  | succ n ih =>
    intro t u h
    unfold searchFrom at h
    by_cases hf : c.fires t
    · rw [if_pos hf] at h
      cases h
      exact ⟨le_refl _, by omega, hf, fun v hv1 hv2 => absurd hv1 (by omega)⟩
    · rw [if_neg hf] at h
      obtain ⟨h1, h2, h3, h4⟩ := ih (t + 1) u h
      refine ⟨by omega, by omega, h3, fun v hv1 hv2 => ?_⟩
      by_cases hveq : v = t
      · subst hveq
        exact Bool.not_eq_true _ ▸ (by simpa using hf)
      · exact h4 v (by omega) hv2

theorem searchFrom_isSome (c : CronExpr) (fuel : Nat) :
    ∀ t, (∃ u, t ≤ u ∧ u < t + fuel ∧ c.fires u = true) →
      ∃ u, searchFrom c t fuel = some u := by
  induction fuel with
  | zero =>
    intro t h
    obtain ⟨u, h1, h2, _⟩ := h
    omega
  | succ n ih =>
    intro t h
    unfold searchFrom
    by_cases hf : c.fires t
    · rw [if_pos hf]
      exact ⟨t, rfl⟩
    · rw [if_neg hf]
      obtain ⟨u, h1, h2, h3⟩ := h
      have hne : u ≠ t := fun he => hf (he ▸ h3)
      exact ih (t + 1) ⟨u, by omega, by omega, h3⟩

theorem exists_fire_in_window (c : CronExpr) (hv : c.valid) (t : Nat) :
    ∃ u, t ≤ u ∧ u < t + c.period ∧ c.fires u = true := by
  obtain ⟨hpos, s, hs, hpat⟩ := hv
  have hr : t % c.period < c.period := Nat.mod_lt t hpos
  have hdm : c.period * (t / c.period) + t % c.period = t := Nat.div_add_mod t c.period
  refine ⟨t + (s + c.period - t % c.period) % c.period, Nat.le_add_right _ _, ?_, ?_⟩
  · have := Nat.mod_lt (s + c.period - t % c.period) hpos
    omega
  · show c.pattern ((t + (s + c.period - t % c.period) % c.period) % c.period) = true
    rw [Nat.add_mod_mod]
    have he2 : c.period * (t / c.period + 1) = c.period * (t / c.period) + c.period := by
      ring
    have heq : t + (s + c.period - t % c.period) = s + c.period * (t / c.period + 1) := by
      omega
    rw [heq, Nat.add_mul_mod_self_left, Nat.mod_eq_of_lt hs]
    exact hpat

theorem next_occurrence_spec (c : CronExpr) (hv : c.valid) (now : Nat) :
    now < next_occurrence c now ∧ c.fires (next_occurrence c now) = true ∧
      ∀ v, now < v → v < next_occurrence c now → c.fires v = false := by
  obtain ⟨u, hsearch⟩ :=
    searchFrom_isSome c c.period (now + 1) (exists_fire_in_window c hv (now + 1))
  obtain ⟨h1, _, h3, h4⟩ := searchFrom_some c c.period (now + 1) u hsearch
  unfold next_occurrence
  rw [hsearch]
  simp only [Option.getD_some]
  exact ⟨by omega, h3, fun v hv1 hv2 => h4 v (by omega) hv2⟩

theorem next_occurrence_mono (c : CronExpr) (hv : c.valid) (t1 t2 : Nat)
    (h : t1 ≤ t2) : next_occurrence c t1 ≤ next_occurrence c t2 := by
  obtain ⟨_, _, hm1⟩ := next_occurrence_spec c hv t1
  obtain ⟨ha2, hf2, _⟩ := next_occurrence_spec c hv t2
  by_contra hlt
  push_neg at hlt
  have hfalse : c.fires (next_occurrence c t2) = false := hm1 _ (by omega) hlt
  rw [hf2] at hfalse
  cases hfalse

/-- Claim C8: for a valid cron expression, the next occurrence computed at
time `now` is strictly greater than `now`, the computation is monotone in
the evaluation time, and the sequence of successive computations is
strictly increasing. -/
theorem next_occurrence_strict_and_mono (c : CronExpr) (hv : c.valid) :
    (∀ now, now < next_occurrence c now) ∧
    (∀ t1 t2, t1 ≤ t2 → next_occurrence c t1 ≤ next_occurrence c t2) ∧
    (∀ t n, occurrenceSeq c t n < occurrenceSeq c t (n + 1)) := by
  refine ⟨fun now => (next_occurrence_spec c hv now).1,
    fun t1 t2 h => next_occurrence_mono c hv t1 t2 h,
    fun t n => ?_⟩
  exact (next_occurrence_spec c hv (occurrenceSeq c t n)).1

/-- Witness for claim C8 at a concrete hourly-style expression. -/
theorem next_occurrence_strict_and_mono_witness :
    (5 : Nat) < next_occurrence ⟨60, fun s => s == 0⟩ 5 ∧
    next_occurrence ⟨60, fun s => s == 0⟩ 5 ≤ next_occurrence ⟨60, fun s => s == 0⟩ 61 := by
  have h := next_occurrence_strict_and_mono ⟨60, fun s => s == 0⟩
    ⟨by norm_num, 0, by norm_num, rfl⟩
  exact ⟨h.1 5, h.2.1 5 61 (by norm_num)⟩

/-! ### Context menus -/

/-- Claim C9: `ContextMenuWidget.bound` raises a configuration error if the
callback does not take exactly three parameters or if the trailing subject
parameter is unannotated; otherwise the wrapped callback carries the subject
parameter's type annotation and invokes the original callback with the
owning plugin prepended as first argument. -/
theorem context_menu_bound_spec (w : ContextMenuWidget) (plugin : Nat) :
    (w.params.length ≠ 3 →
      w.bound plugin = .error "Context menus require exactly 3 parameters") ∧
    (∀ subject, w.params.length = 3 → w.params.getLast? = some subject →
      subject.ann = none →
      w.bound plugin
        = .error "Third parameter of context menus must be explicityly typed.") ∧
    (∀ subject ty, w.params.length = 3 → w.params.getLast? = some subject →
      subject.ann = some ty →
      ∃ b, w.bound plugin = .ok b ∧ b.subjectTy = ty ∧
        ∀ interaction subj, b.run interaction subj
          = w.callback plugin interaction subj) := by
  refine ⟨fun hlen => ?_, fun subject hlen hlast hann => ?_, fun subject ty hlen hlast hann => ?_⟩
  · unfold ContextMenuWidget.bound
    rw [if_pos hlen]
  · unfold ContextMenuWidget.bound
    rw [if_neg (by omega : ¬w.params.length ≠ 3), hlast]
    simp only [hann]
  · unfold ContextMenuWidget.bound
    rw [if_neg (by omega : ¬w.params.length ≠ 3), hlast]
    simp only [hann]
    exact ⟨_, rfl, rfl, fun interaction subj => rfl⟩

/-- Witness for claim C9 at a concrete three-parameter annotated callback. -/
theorem context_menu_bound_spec_witness :
    ∃ b, ContextMenuWidget.bound
        ⟨[⟨"self", none⟩, ⟨"interaction", some "Interaction"⟩,
          ⟨"message", some "discord.Message"⟩], fun p i s => [p, i, s]⟩ 7 = .ok b ∧
      b.subjectTy = "discord.Message" ∧
      ∀ i s, b.run i s = [7, i, s] :=
  (context_menu_bound_spec
    ⟨[⟨"self", none⟩, ⟨"interaction", some "Interaction"⟩,
      ⟨"message", some "discord.Message"⟩], fun p i s => [p, i, s]⟩ 7).2.2
    ⟨"message", some "discord.Message"⟩ "discord.Message" rfl rfl rfl

end Amethyst
